import Mathlib

/-!
# Verification of the jsphere sphere model (`src/js/sphere.js`)

Shallow embedding of the `Dot` and `Sphere` classes of `src/js/sphere.js`
(the current revision; `src/unnamed/part_000` is an earlier revision of the
same file).  JavaScript numbers are modelled as real numbers; `Math.round`
is modelled as `jround` (round half toward positive infinity, which is the
JS semantics); the canvas is out of scope, so the render pass is modelled
as the list of draw calls it issues.
-/

noncomputable section

/-- JavaScript `Math.round`: rounds half-way cases toward `+∞`. -/
def jround (x : ℝ) : ℤ := ⌊x + 1/2⌋

/-- One surface point (`class Dot`).  The color fields `fgColor`/`bgColor`
are constants never read by `Sphere`, so they are omitted. -/
structure Dot where
  x : ℝ
  y : ℝ
  z : ℝ
  fg : Bool

/-- The sphere model state: the fields of `class Sphere` that the geometry
and render code read or write (the canvas context is out of scope). -/
structure Sphere where
  x : ℝ
  y : ℝ
  z : ℝ
  r : ℝ
  circleSize : ℝ
  drawSpheres : Bool
  points : List (List Dot)

/-! ## Construction (`Sphere.constructor`) -/

/-- The angular step `angstep = Math.PI/10` of the constructor. -/
def angstep : ℝ := Real.pi / 10

/-- The loop `for (let ang=0; ang<2*Math.PI; ang+=angstep)`: the list of
angle values the loop body sees, starting from `a`, with enough fuel to
reach the bound.  Over real arithmetic the loop from `0` terminates after
20 iterations (`20 * angstep = 2π` fails the strict bound). -/
def genAngles : Nat → ℝ → List ℝ
  | 0, _ => []
  | fuel + 1, a => if a < 2 * Real.pi then a :: genAngles fuel (a + angstep) else []

/-- The angle values swept by each of the two constructor loops. -/
def sphereAngles : List ℝ := genAngles 21 0

/-- The `Dot` pushed by the constructor's inner loop body for angles
`angxy`, `angyz`, sphere center `(x, y, z)` and radius `r`. -/
def mkDot (x y z r angxy angyz : ℝ) : Dot :=
  { x := r * Real.cos angxy * Real.sin angyz + x
    y := r * Real.sin angxy * Real.sin angyz + y
    z := r * Real.cos angyz + z
    fg := decide (Real.cos angyz > 0) }

/-- `new Sphere({x, y, z, r, drawSpheres})`: `circleSize` is fixed at 10 and
the point grid is generated row-major over the two angle sweeps. -/
def mkSphere (x y z r : ℝ) (drawSpheres : Bool) : Sphere :=
  { x := x, y := y, z := z, r := r
    circleSize := 10
    drawSpheres := drawSpheres
    points := sphereAngles.map fun angxy =>
      sphereAngles.map fun angyz => mkDot x y z r angxy angyz }

/-! ## Render pass (`Sphere.draw`)

The canvas is external; the pass is modelled by the sequence of per-point
draw calls it issues.  `z_sorted[this.points.length*i+j] = this.points[i][j]`
lays the rows out consecutively in row-major order (for the square grids the
constructor builds and the transforms preserve, `points.length` equals each
row's length, so index `points.length*i+j` enumerates `0,1,2,…` with neither
gaps nor collisions), i.e. it flattens the grid. -/

/-- The dot appended by `z_sorted[z_sorted.length] = new Dot(this.x, this.y,
this.z)`.  The ES6 `Dot` constructor destructures its single parameter as an
options object; a number has no `x`/`y`/`z`/`fg` properties, so every field
takes its default value: the appended dot is `(0,0,0)` with `fg = true`,
regardless of the sphere's center. -/
def syntheticDot : Dot := { x := 0, y := 0, z := 0, fg := true }

/-- The working sequence `z_sorted` before sorting: all surface points in
row-major order, then the synthetic dot. -/
def workingSeq (s : Sphere) : List Dot :=
  s.points.flatten ++ [syntheticDot]

/-- The sort order of `z_sorted.sort(function(a,b){return (b.z-a.z)})`:
descending by `z`.  -/
def zGE (a b : Dot) : Prop := b.z ≤ a.z

instance : DecidableRel zGE := fun a b => (inferInstance : Decidable (b.z ≤ a.z))

instance : IsTotal Dot zGE := ⟨fun a b => le_total b.z a.z⟩

instance : IsTrans Dot zGE := ⟨fun _ _ _ h1 h2 => le_trans h2 h1⟩

/-- `z_sorted` after the sort: the stable descending-by-`z` permutation of
the working sequence (a consistent comparator makes the ES2019 stable sort's
output this unique list; stability is irrelevant to the properties proved). -/
def drawList (s : Sphere) : List Dot := List.insertionSort zGE (workingSeq s)

/-- The gray level `n = Math.round(((z + this.r)/(this.r*2)) * 250)`. -/
def grayIndex (r z : ℝ) : ℤ := jround ((z + r) / (r * 2) * 250)

/-- A fill color: `"#27F"`, `"#FFFFFF"`, or `"rgb(n,n,n)"`. -/
inductive Color where
  | blue : Color
  | white : Color
  | gray : ℤ → Color
deriving DecidableEq

/-- The color chosen for one entry of `z_sorted` in the draw loop. -/
def dotColor (s : Sphere) (d : Dot) : Color :=
  if d.x = s.x ∧ d.y = s.y ∧ d.z = s.z then Color.blue
  else Color.gray (grayIndex s.r d.z)

/-- One per-point canvas call issued by the draw loop. -/
inductive DrawCall where
  | fillCircle (x y r : ℝ) (c : Color)
  | fillCircleGradient (x y r : ℝ) (inner outer : Color)

/-- The per-point draw calls of one render pass, in issue order. -/
def drawCalls (s : Sphere) : List DrawCall :=
  (drawList s).map fun d =>
    if s.drawSpheres then
      DrawCall.fillCircleGradient d.x d.y s.circleSize Color.white (dotColor s d)
    else
      DrawCall.fillCircle d.x d.y s.circleSize (dotColor s d)

/-! ## Transform operations -/

/-- `Sphere.pan(x, y)`: translate every point and the center in `x`/`y`. -/
def Sphere.pan (s : Sphere) (dx dy : ℝ) : Sphere :=
  { s with
    x := s.x + dx
    y := s.y + dy
    points := s.points.map (List.map fun d => { d with x := d.x + dx, y := d.y + dy }) }

/-- `Sphere.zoom(x, y)`: uniform scale of center, radius, dot size and all
points by `(r + (x>0 ? length : -length)) / r` with `length = round(√(x²+y²))`. -/
def Sphere.zoom (s : Sphere) (dx dy : ℝ) : Sphere :=
  let length : ℝ := (jround (Real.sqrt (dx * dx + dy * dy)) : ℝ)
  let scale : ℝ := (s.r + (if dx > 0 then length else -length)) / s.r
  { s with
    x := s.x * scale
    y := s.y * scale
    z := s.z * scale
    r := s.r * scale
    circleSize := s.circleSize * scale
    points := s.points.map (List.map fun d =>
      { d with x := d.x * scale, y := d.y * scale, z := d.z * scale }) }

/-- `Sphere.hiddenFun1(x, y)` ("split pan"): grow `r` by `round(√(x²+y²))`
and push each point's `x`/`y` away from (or past) the center. -/
def Sphere.hiddenFun1 (s : Sphere) (dx dy : ℝ) : Sphere :=
  { s with
    r := s.r + (jround (Real.sqrt (dx * dx + dy * dy)) : ℝ)
    points := s.points.map (List.map fun d =>
      { d with
        x := d.x + (if d.x > s.x then dx else -dx)
        y := d.y + (if d.y > s.y then dy else -dy) }) }

/-- `Sphere.hiddenFun2(x, y)` ("cigar zoom") in `src/js/sphere.js`: the line
`scale = (r + (x>0?length:-length))/r` reads a bare `r` inside a class
method.  No binding named `r` is in scope there (class methods do not close
over a constructor parameter, and the file declares no global `r`), so the
method throws a `ReferenceError` before mutating anything: it never produces
a successor state.  Modelled as the always-failing fallible operation. -/
def Sphere.hiddenFun2 (_s : Sphere) (_dx _dy : ℝ) : Option Sphere := none

/-- The loop body of `rotateXY`: a 2D rotation of `(x, y)` about `(cx, cy)`. -/
def rotXYpt (cx cy ang : ℝ) (d : Dot) : Dot :=
  { d with
    x := (d.x - cx) * Real.cos ang - (d.y - cy) * Real.sin ang + cx
    y := (d.x - cx) * Real.sin ang + (d.y - cy) * Real.cos ang + cy }

/-- The loop body of `rotateXZ`: a 2D rotation of `(x, z)` about `(cx, cz)`. -/
def rotXZpt (cx cz ang : ℝ) (d : Dot) : Dot :=
  { d with
    x := (d.x - cx) * Real.cos ang - (d.z - cz) * Real.sin ang + cx
    z := (d.x - cx) * Real.sin ang + (d.z - cz) * Real.cos ang + cz }

/-- The loop body of `rotateYZ`: a 2D rotation of `(y, z)` about `(cy, cz)`. -/
def rotYZpt (cy cz ang : ℝ) (d : Dot) : Dot :=
  { d with
    y := (d.y - cy) * Real.cos ang - (d.z - cz) * Real.sin ang + cy
    z := (d.y - cy) * Real.sin ang + (d.z - cz) * Real.cos ang + cz }

/-- `Sphere.rotateXY(ang)`: rotate every point about the Z axis through the
center. -/
def Sphere.rotateXY (s : Sphere) (ang : ℝ) : Sphere :=
  { s with points := s.points.map (List.map (rotXYpt s.x s.y ang)) }

/-- `Sphere.rotateXZ(ang)`: rotate every point about the Y axis through the
center. -/
def Sphere.rotateXZ (s : Sphere) (ang : ℝ) : Sphere :=
  { s with points := s.points.map (List.map (rotXZpt s.x s.z ang)) }

/-- `Sphere.rotateYZ(ang)`: rotate every point about the X axis through the
center. -/
def Sphere.rotateYZ (s : Sphere) (ang : ℝ) : Sphere :=
  { s with points := s.points.map (List.map (rotYZpt s.y s.z ang)) }

/-- `Sphere.rotate(x, y)`: `rotateXZ(((π/2)/this.r)*x)` then
`rotateYZ(((π/2)/this.r)*y)` on the updated state (whose `r` is unchanged). -/
def Sphere.rotate (s : Sphere) (dx dy : ℝ) : Sphere :=
  let s1 := s.rotateXZ (Real.pi / 2 / s.r * dx)
  s1.rotateYZ (Real.pi / 2 / s1.r * dy)

/-! ## Derived observations used by the claims -/

/-- Squared Euclidean distance of a dot from the point `(cx, cy, cz)`. -/
def dist2 (d : Dot) (cx cy cz : ℝ) : ℝ :=
  (d.x - cx) ^ 2 + (d.y - cy) ^ 2 + (d.z - cz) ^ 2

/-- The row lengths of the point grid. -/
def gridShape (s : Sphere) : List Nat := s.points.map List.length

/-- The total number of surface points. -/
def numPoints (s : Sphere) : Nat := s.points.flatten.length

/-- The grid of `fg` flags. -/
def fgGrid (s : Sphere) : List (List Bool) := s.points.map (List.map Dot.fg)

/-! ## The angle sweep: 20 iterations -/

theorem angstep_pos : 0 < angstep := by
  unfold angstep
  positivity

theorem twenty_angstep : (20 : ℝ) * angstep = 2 * Real.pi := by
  unfold angstep
  ring

theorem genAngles_spec :
    ∀ (fuel k : Nat), k ≤ 20 → 21 - k ≤ fuel →
      genAngles fuel ((k : ℝ) * angstep) =
        (List.range (20 - k)).map fun i => ((k + i : Nat) : ℝ) * angstep := by
  intro fuel
  induction fuel with
  | zero => intro k hk hf; omega
  | succ n ih =>
    intro k hk hf
    by_cases h : k < 20
    · have hlt : (k : ℝ) * angstep < 2 * Real.pi := by
        rw [← twenty_angstep]
        exact mul_lt_mul_of_pos_right (by exact_mod_cast h) angstep_pos
      have hstep : (k : ℝ) * angstep + angstep = ((k + 1 : Nat) : ℝ) * angstep := by
        push_cast
        ring
      have hrange : 20 - k = (20 - (k + 1)) + 1 := by omega
      rw [genAngles, if_pos hlt, hstep, ih (k + 1) (by omega) (by omega), hrange,
        List.range_succ_eq_map, List.map_cons, List.map_map]
      congr 1
      apply List.map_congr_left
      intro i _
      simp only [Function.comp]
      have hidx : k + 1 + i = k + Nat.succ i := by omega
      rw [hidx]
    · have hk20 : k = 20 := by omega
      subst hk20
      rw [genAngles, if_neg (by push_cast; rw [twenty_angstep]; exact lt_irrefl _),
        show 20 - 20 = 0 by rfl]
      simp

theorem sphereAngles_eq :
    sphereAngles = (List.range 20).map fun (i : ℕ) => (i : ℝ) * angstep := by
  have h := genAngles_spec 21 0 (by norm_num) (by norm_num)
  simp only [Nat.cast_zero, zero_mul, Nat.sub_zero, Nat.zero_add] at h
  simpa [sphereAngles] using h

theorem sphereAngles_length : sphereAngles.length = 20 := by
  rw [sphereAngles_eq, List.length_map, List.length_range]

theorem mkSphere_points (x y z r : ℝ) (b : Bool) :
    (mkSphere x y z r b).points =
      (List.range 20).map fun (i : ℕ) =>
        (List.range 20).map fun (j : ℕ) => mkDot x y z r ((i : ℝ) * angstep) ((j : ℝ) * angstep) := by
  simp [mkSphere, sphereAngles_eq, List.map_map, Function.comp]

/-! ## Generic helper lemmas -/

theorem forall2_map_self {α : Type} {P : α → α → Prop} (g : α → α)
    (h : ∀ a, P a (g a)) : ∀ l : List α, List.Forall₂ P l (l.map g) := by
  intro l
  induction l with
  | nil => exact List.Forall₂.nil
  | cons a t ih => exact List.Forall₂.cons (h a) ih

theorem forall2_grid_map_self {P : Dot → Dot → Prop} (g : Dot → Dot)
    (h : ∀ d, P d (g d)) (l : List (List Dot)) :
    List.Forall₂ (List.Forall₂ P) l (l.map (List.map g)) :=
  forall2_map_self (List.map g) (fun row => forall2_map_self g h row) l

theorem gridShape_map (g : Dot → Dot) (l : List (List Dot)) :
    (l.map (List.map g)).map List.length = l.map List.length := by
  simp [List.map_map, Function.comp, List.length_map]

theorem fgGrid_map (g : Dot → Dot) (hg : ∀ d, (g d).fg = d.fg) (l : List (List Dot)) :
    (l.map (List.map g)).map (List.map Dot.fg) = l.map (List.map Dot.fg) := by
  simp only [List.map_map]
  apply List.map_congr_left
  intro row _
  simp only [Function.comp]
  rw [List.map_map]
  apply List.map_congr_left
  intro e _
  exact hg e

theorem numPoints_eq_sum (s : Sphere) : numPoints s = (gridShape s).sum := by
  simp [numPoints, gridShape, List.length_flatten]

/-! ## Shape and fg preservation, operation by operation -/

theorem gridShape_pan (s : Sphere) (dx dy : ℝ) : gridShape (s.pan dx dy) = gridShape s := by
  simp only [gridShape, Sphere.pan]
  exact gridShape_map _ s.points

theorem gridShape_zoom (s : Sphere) (dx dy : ℝ) : gridShape (s.zoom dx dy) = gridShape s := by
  simp only [gridShape, Sphere.zoom]
  exact gridShape_map _ s.points

theorem gridShape_hiddenFun1 (s : Sphere) (dx dy : ℝ) :
    gridShape (s.hiddenFun1 dx dy) = gridShape s := by
  simp only [gridShape, Sphere.hiddenFun1]
  exact gridShape_map _ s.points

theorem gridShape_rotateXY (s : Sphere) (ang : ℝ) :
    gridShape (s.rotateXY ang) = gridShape s := by
  simp only [gridShape, Sphere.rotateXY]
  exact gridShape_map _ s.points

theorem gridShape_rotateXZ (s : Sphere) (ang : ℝ) :
    gridShape (s.rotateXZ ang) = gridShape s := by
  simp only [gridShape, Sphere.rotateXZ]
  exact gridShape_map _ s.points

theorem gridShape_rotateYZ (s : Sphere) (ang : ℝ) :
    gridShape (s.rotateYZ ang) = gridShape s := by
  simp only [gridShape, Sphere.rotateYZ]
  exact gridShape_map _ s.points

theorem gridShape_rotate (s : Sphere) (dx dy : ℝ) :
    gridShape (s.rotate dx dy) = gridShape s := by
  simp only [Sphere.rotate]
  rw [gridShape_rotateYZ, gridShape_rotateXZ]

theorem fgGrid_pan (s : Sphere) (dx dy : ℝ) : fgGrid (s.pan dx dy) = fgGrid s := by
  simp only [fgGrid, Sphere.pan]
  apply fgGrid_map
  intro d
  rfl

theorem fgGrid_zoom (s : Sphere) (dx dy : ℝ) : fgGrid (s.zoom dx dy) = fgGrid s := by
  simp only [fgGrid, Sphere.zoom]
  apply fgGrid_map
  intro d
  rfl

theorem fgGrid_hiddenFun1 (s : Sphere) (dx dy : ℝ) :
    fgGrid (s.hiddenFun1 dx dy) = fgGrid s := by
  simp only [fgGrid, Sphere.hiddenFun1]
  apply fgGrid_map
  intro d
  rfl

theorem fgGrid_rotateXY (s : Sphere) (ang : ℝ) : fgGrid (s.rotateXY ang) = fgGrid s := by
  simp only [fgGrid, Sphere.rotateXY]
  apply fgGrid_map
  intro d
  rfl

theorem fgGrid_rotateXZ (s : Sphere) (ang : ℝ) : fgGrid (s.rotateXZ ang) = fgGrid s := by
  simp only [fgGrid, Sphere.rotateXZ]
  apply fgGrid_map
  intro d
  rfl

theorem fgGrid_rotateYZ (s : Sphere) (ang : ℝ) : fgGrid (s.rotateYZ ang) = fgGrid s := by
  simp only [fgGrid, Sphere.rotateYZ]
  apply fgGrid_map
  intro d
  rfl

theorem fgGrid_rotate (s : Sphere) (dx dy : ℝ) : fgGrid (s.rotate dx dy) = fgGrid s := by
  simp only [Sphere.rotate]
  rw [fgGrid_rotateYZ, fgGrid_rotateXZ]

/-! ## The constructed grid -/

theorem gridShape_mkSphere (x y z r : ℝ) (b : Bool) :
    gridShape (mkSphere x y z r b) = List.replicate 20 20 := by
  rw [gridShape, mkSphere_points, List.map_map, List.eq_replicate_iff]
  refine ⟨by simp, ?_⟩
  intro n hn
  rw [List.mem_map] at hn
  obtain ⟨i, _, hi⟩ := hn
  rw [← hi]
  simp [Function.comp]

theorem numPoints_mkSphere (x y z r : ℝ) (b : Bool) :
    numPoints (mkSphere x y z r b) = 400 := by
  rw [numPoints_eq_sum, gridShape_mkSphere]
  simp [List.sum_replicate]

theorem ceil_sweep : (⌈2 * Real.pi / angstep⌉ : ℤ) = 20 := by
  have h : 2 * Real.pi / angstep = 20 := by
    unfold angstep
    field_simp
    ring
  rw [h]
  norm_num

theorem numPoints_pan (s : Sphere) (dx dy : ℝ) : numPoints (s.pan dx dy) = numPoints s := by
  rw [numPoints_eq_sum, numPoints_eq_sum, gridShape_pan]

theorem numPoints_zoom (s : Sphere) (dx dy : ℝ) : numPoints (s.zoom dx dy) = numPoints s := by
  rw [numPoints_eq_sum, numPoints_eq_sum, gridShape_zoom]

theorem numPoints_hiddenFun1 (s : Sphere) (dx dy : ℝ) :
    numPoints (s.hiddenFun1 dx dy) = numPoints s := by
  rw [numPoints_eq_sum, numPoints_eq_sum, gridShape_hiddenFun1]

theorem numPoints_rotateXY (s : Sphere) (ang : ℝ) :
    numPoints (s.rotateXY ang) = numPoints s := by
  rw [numPoints_eq_sum, numPoints_eq_sum, gridShape_rotateXY]

theorem numPoints_rotateXZ (s : Sphere) (ang : ℝ) :
    numPoints (s.rotateXZ ang) = numPoints s := by
  rw [numPoints_eq_sum, numPoints_eq_sum, gridShape_rotateXZ]

theorem numPoints_rotateYZ (s : Sphere) (ang : ℝ) :
    numPoints (s.rotateYZ ang) = numPoints s := by
  rw [numPoints_eq_sum, numPoints_eq_sum, gridShape_rotateYZ]

theorem numPoints_rotate (s : Sphere) (dx dy : ℝ) :
    numPoints (s.rotate dx dy) = numPoints s := by
  rw [numPoints_eq_sum, numPoints_eq_sum, gridShape_rotate]

/-- Head of each constructed row: the `angyz = 0` pole point. -/
theorem mkSphere_row_heads (x y z r : ℝ) (b : Bool) :
    (mkSphere x y z r b).points.map List.head? =
      List.replicate 20 (some { x := x, y := y, z := z + r, fg := true }) := by
  rw [mkSphere_points]
  rw [List.map_map]
  rw [List.eq_replicate_iff]
  constructor
  · simp
  · intro o ho
    rw [List.mem_map] at ho
    obtain ⟨i, _, hio⟩ := ho
    rw [← hio]
    simp only [Function.comp, List.head?_map]
    rw [show (20 : ℕ) = 19 + 1 from rfl, List.range_succ_eq_map]
    simp only [List.head?_cons, Option.map_some]
    simp [mkDot, Dot.mk.injEq, Real.sin_zero, Real.cos_zero]
    ring

/-- The pole point is one of the constructed surface points. -/
theorem poleDot_mem (x y z r : ℝ) (b : Bool) :
    ({ x := x, y := y, z := z + r, fg := true } : Dot) ∈ (mkSphere x y z r b).points.flatten := by
  rw [mkSphere_points, List.mem_flatten]
  refine ⟨(List.range 20).map fun (j : ℕ) => mkDot x y z r (((0 : ℕ) : ℝ) * angstep) ((j : ℝ) * angstep), ?_, ?_⟩
  · rw [List.mem_map]
    exact ⟨0, by simp, rfl⟩
  · rw [List.mem_map]
    refine ⟨0, by simp, ?_⟩
    simp [mkDot, Dot.mk.injEq, Real.sin_zero, Real.cos_zero]
    ring

/-- Every constructed point's `z` is `r * cos θ + z` for some angle `θ`. -/
theorem mkSphere_mem_z (x y z r : ℝ) (b : Bool) (d : Dot)
    (hd : d ∈ (mkSphere x y z r b).points.flatten) :
    ∃ θ : ℝ, d.z = r * Real.cos θ + z := by
  rw [mkSphere_points, List.mem_flatten] at hd
  obtain ⟨row, hrow, hdr⟩ := hd
  rw [List.mem_map] at hrow
  obtain ⟨i, _, hi⟩ := hrow
  rw [← hi, List.mem_map] at hdr
  obtain ⟨j, _, hj⟩ := hdr
  exact ⟨(j : ℝ) * angstep, by rw [← hj]; rfl⟩

/-! ## Claim theorems -/

/-- **C5.** For every center and radius, construction sweeps `angxy` and
`angyz` each from 0 up to (strictly below) 2π in steps of π/10 and generates
exactly `⌈2π/angstep⌉² = 400` surface points (20 rows of 20), and no
operation ever changes the collection's size after construction
(`hiddenFun2` never even produces a successor state). -/
theorem point_count_fixed :
    ∀ (x y z r : ℝ) (b : Bool) (s : Sphere) (dx dy ang : ℝ),
      gridShape (mkSphere x y z r b) = List.replicate 20 20
      ∧ numPoints (mkSphere x y z r b) = 400
      ∧ numPoints (mkSphere x y z r b) = (⌈2 * Real.pi / angstep⌉).toNat ^ 2
      ∧ numPoints (s.rotate dx dy) = numPoints s
      ∧ numPoints (s.rotateXY ang) = numPoints s
      ∧ numPoints (s.rotateXZ ang) = numPoints s
      ∧ numPoints (s.rotateYZ ang) = numPoints s
      ∧ numPoints (s.pan dx dy) = numPoints s
      ∧ numPoints (s.zoom dx dy) = numPoints s
      ∧ numPoints (s.hiddenFun1 dx dy) = numPoints s
      ∧ (s.hiddenFun2 dx dy).elim True (fun t => numPoints t = numPoints s) := by
  intro x y z r b s dx dy ang
  refine ⟨gridShape_mkSphere x y z r b, numPoints_mkSphere x y z r b, ?_,
    numPoints_rotate s dx dy, numPoints_rotateXY s ang, numPoints_rotateXZ s ang,
    numPoints_rotateYZ s ang, numPoints_pan s dx dy, numPoints_zoom s dx dy,
    numPoints_hiddenFun1 s dx dy, trivial⟩
  rw [numPoints_mkSphere, ceil_sweep]
  decide

/-- **C8.** Pan composes additively: `pan(a,b)` then `pan(c,d)` yields the
very same state as `pan(a+c,b+d)`, and pan never changes any `z`
coordinate (of the center or of any point). -/
theorem pan_additive :
    ∀ (s : Sphere) (a b c d : ℝ),
      (s.pan a b).pan c d = s.pan (a + c) (b + d)
      ∧ (s.pan a b).z = s.z
      ∧ List.Forall₂ (List.Forall₂ fun p q => q.z = p.z) s.points (s.pan a b).points := by
  intro s a b c d
  refine ⟨?_, rfl, ?_⟩
  · simp only [Sphere.pan, List.map_map]
    congr 1
    · ring
    · ring
    · apply List.map_congr_left
      intro row _
      simp only [Function.comp]
      rw [List.map_map]
      apply List.map_congr_left
      intro e _
      simp only [Function.comp, Dot.mk.injEq]
      exact ⟨by ring, by ring, trivial, trivial⟩
  · simp only [Sphere.pan]
    apply forall2_grid_map_self
    intro e
    rfl

/-- **C9.** The `fg` flag of every surface point is assigned exactly once at
construction (`true` iff `cos angyz > 0` at generation) and no transform
ever modifies any point's `fg` (`hiddenFun2` produces no successor at all);
the render pass reads but never writes the state. -/
theorem fg_assigned_once :
    ∀ (x y z r : ℝ) (b : Bool) (s : Sphere) (dx dy ang : ℝ),
      fgGrid (mkSphere x y z r b) =
        (List.range 20).map (fun (_i : ℕ) =>
          (List.range 20).map fun (j : ℕ) => decide (Real.cos ((j : ℝ) * angstep) > 0))
      ∧ fgGrid (s.rotate dx dy) = fgGrid s
      ∧ fgGrid (s.rotateXY ang) = fgGrid s
      ∧ fgGrid (s.rotateXZ ang) = fgGrid s
      ∧ fgGrid (s.rotateYZ ang) = fgGrid s
      ∧ fgGrid (s.pan dx dy) = fgGrid s
      ∧ fgGrid (s.zoom dx dy) = fgGrid s
      ∧ fgGrid (s.hiddenFun1 dx dy) = fgGrid s
      ∧ (s.hiddenFun2 dx dy).elim True (fun t => fgGrid t = fgGrid s) := by
  intro x y z r b s dx dy ang
  refine ⟨?_, fgGrid_rotate s dx dy, fgGrid_rotateXY s ang, fgGrid_rotateXZ s ang,
    fgGrid_rotateYZ s ang, fgGrid_pan s dx dy, fgGrid_zoom s dx dy,
    fgGrid_hiddenFun1 s dx dy, trivial⟩
  rw [fgGrid, mkSphere_points, List.map_map]
  apply List.map_congr_left
  intro i _
  simp [Function.comp, mkDot]

/-- **C10 (implicit).** Since `sin 0 = 0`, every one of the 20 rows begins
with a point at exactly `(center.x, center.y, center.z + r)` with
`fg = true`: the fresh collection holds 20 coincident pole points, all drawn
at the same screen position `(center.x, center.y)`. -/
theorem pole_rows :
    ∀ (x y z r : ℝ) (b : Bool),
      (mkSphere x y z r b).points.length = 20
      ∧ (mkSphere x y z r b).points.map List.head? =
          List.replicate 20 (some { x := x, y := y, z := z + r, fg := true }) := by
  intro x y z r b
  refine ⟨?_, mkSphere_row_heads x y z r b⟩
  rw [mkSphere_points, List.length_map, List.length_range]

/-! ## Rotation preserves distance from the center (C6) -/

theorem forall2_grid_map_comp {P : Dot → Dot → Prop} (g1 g2 : Dot → Dot)
    (h : ∀ d, P d (g2 (g1 d))) (l : List (List Dot)) :
    List.Forall₂ (List.Forall₂ P) l ((l.map (List.map g1)).map (List.map g2)) := by
  have hrw : (l.map (List.map g1)).map (List.map g2) =
      l.map (List.map fun d => g2 (g1 d)) := by
    rw [List.map_map]
    apply List.map_congr_left
    intro row _
    simp [Function.comp, List.map_map]
  rw [hrw]
  exact forall2_grid_map_self _ h l

theorem rotXZpt_dist2 (cx cy cz a : ℝ) (d : Dot) :
    dist2 (rotXZpt cx cz a d) cx cy cz = dist2 d cx cy cz := by
  simp only [dist2, rotXZpt]
  linear_combination ((d.x - cx) ^ 2 + (d.z - cz) ^ 2) * Real.sin_sq_add_cos_sq a

theorem rotYZpt_dist2 (cx cy cz a : ℝ) (d : Dot) :
    dist2 (rotYZpt cy cz a d) cx cy cz = dist2 d cx cy cz := by
  simp only [dist2, rotYZpt]
  linear_combination ((d.y - cy) ^ 2 + (d.z - cz) ^ 2) * Real.sin_sq_add_cos_sq a

theorem rotXYpt_dist2 (cx cy cz a : ℝ) (d : Dot) :
    dist2 (rotXYpt cx cy a d) cx cy cz = dist2 d cx cy cz := by
  simp only [dist2, rotXYpt]
  linear_combination ((d.x - cx) ^ 2 + (d.y - cy) ^ 2) * Real.sin_sq_add_cos_sq a

/-- **C6.** Rotation is norm-preserving: for every state with nonzero radius
and every `(dx, dy)`, `rotate(dx,dy)` — `rotateXZ((π/2/r)·dx)` then
`rotateYZ((π/2/r)·dy)` — leaves the center unchanged and leaves each point's
squared Euclidean distance from the center exactly unchanged (over real
arithmetic). -/
theorem rotate_preserves_radius :
    ∀ (s : Sphere) (dx dy : ℝ), s.r ≠ 0 →
      (s.rotate dx dy).x = s.x ∧ (s.rotate dx dy).y = s.y ∧ (s.rotate dx dy).z = s.z
      ∧ List.Forall₂
          (List.Forall₂ fun p q => dist2 q s.x s.y s.z = dist2 p s.x s.y s.z)
          s.points (s.rotate dx dy).points := by
  intro s dx dy _
  refine ⟨rfl, rfl, rfl, ?_⟩
  simp only [Sphere.rotate, Sphere.rotateXZ, Sphere.rotateYZ]
  apply forall2_grid_map_comp
  intro d
  rw [rotYZpt_dist2, rotXZpt_dist2]

/-- Witness for C6 at the concrete sphere `mkSphere 0 0 0 100 false` and
delta `(3, 4)`. -/
theorem rotate_preserves_radius_witness :
    (mkSphere 0 0 0 100 false).r ≠ 0
    ∧ (((mkSphere 0 0 0 100 false).rotate 3 4).x = (mkSphere 0 0 0 100 false).x
      ∧ ((mkSphere 0 0 0 100 false).rotate 3 4).y = (mkSphere 0 0 0 100 false).y
      ∧ ((mkSphere 0 0 0 100 false).rotate 3 4).z = (mkSphere 0 0 0 100 false).z
      ∧ List.Forall₂
          (List.Forall₂ fun p q =>
            dist2 q (mkSphere 0 0 0 100 false).x (mkSphere 0 0 0 100 false).y
                (mkSphere 0 0 0 100 false).z =
              dist2 p (mkSphere 0 0 0 100 false).x (mkSphere 0 0 0 100 false).y
                (mkSphere 0 0 0 100 false).z)
          (mkSphere 0 0 0 100 false).points ((mkSphere 0 0 0 100 false).rotate 3 4).points) :=
  ⟨by norm_num [mkSphere],
    rotate_preserves_radius (mkSphere 0 0 0 100 false) 3 4 (by norm_num [mkSphere])⟩

/-! ## The zoom scenario (C7) -/

theorem sqrt_2500 : Real.sqrt (50 * 50 + 0 * 0) = 50 := by
  rw [show (50 * 50 + 0 * 0 : ℝ) = 50 ^ 2 by norm_num, Real.sqrt_sq (by norm_num)]

theorem jround_50 : ((jround 50 : ℤ) : ℝ) = 50 := by
  rw [show jround 50 = 50 from by rw [jround]; norm_num]
  norm_num

/-- **C7.** For a sphere constructed with center `(0,0,0)` and `r = 100`,
`zoom(50, 0)` has `scale = (100 + round(50))/100 = 1.5`; afterwards
`r = 150`, `circleSize = 15`, the center is still `(0,0,0)` (= 1.5 times
itself), and every point's coordinates are 1.5 times their old values. -/
theorem zoom_scenario :
    ∀ b : Bool,
      ((mkSphere 0 0 0 100 b).zoom 50 0).r = 150
      ∧ ((mkSphere 0 0 0 100 b).zoom 50 0).circleSize = 15
      ∧ ((mkSphere 0 0 0 100 b).zoom 50 0).x = 0
      ∧ ((mkSphere 0 0 0 100 b).zoom 50 0).y = 0
      ∧ ((mkSphere 0 0 0 100 b).zoom 50 0).z = 0
      ∧ List.Forall₂
          (List.Forall₂ fun p q => q.x = 1.5 * p.x ∧ q.y = 1.5 * p.y ∧ q.z = 1.5 * p.z)
          (mkSphere 0 0 0 100 b).points ((mkSphere 0 0 0 100 b).zoom 50 0).points := by
  intro b
  have hscale :
      ((mkSphere 0 0 0 100 b).r +
          if (50 : ℝ) > 0 then ((jround (Real.sqrt (50 * 50 + 0 * 0)) : ℤ) : ℝ)
          else -((jround (Real.sqrt (50 * 50 + 0 * 0)) : ℤ) : ℝ)) /
        (mkSphere 0 0 0 100 b).r = 1.5 := by
    rw [sqrt_2500, if_pos (by norm_num : (50 : ℝ) > 0), jround_50]
    norm_num [mkSphere]
  refine ⟨?_, ?_, ?_, ?_, ?_, ?_⟩
  · show (mkSphere 0 0 0 100 b).r * _ = 150
    rw [hscale]
    norm_num [mkSphere]
  · show (mkSphere 0 0 0 100 b).circleSize * _ = 15
    rw [hscale]
    norm_num [mkSphere]
  · show (mkSphere 0 0 0 100 b).x * _ = 0
    rw [hscale]
    norm_num [mkSphere]
  · show (mkSphere 0 0 0 100 b).y * _ = 0
    rw [hscale]
    norm_num [mkSphere]
  · show (mkSphere 0 0 0 100 b).z * _ = 0
    rw [hscale]
    norm_num [mkSphere]
  · show List.Forall₂ _ (mkSphere 0 0 0 100 b).points
      ((mkSphere 0 0 0 100 b).points.map (List.map _))
    rw [show ((mkSphere 0 0 0 100 b).points.map (List.map fun d =>
        ({ d with
           x := d.x * (((mkSphere 0 0 0 100 b).r +
              if (50 : ℝ) > 0 then ((jround (Real.sqrt (50 * 50 + 0 * 0)) : ℤ) : ℝ)
              else -((jround (Real.sqrt (50 * 50 + 0 * 0)) : ℤ) : ℝ)) / (mkSphere 0 0 0 100 b).r)
           y := d.y * (((mkSphere 0 0 0 100 b).r +
              if (50 : ℝ) > 0 then ((jround (Real.sqrt (50 * 50 + 0 * 0)) : ℤ) : ℝ)
              else -((jround (Real.sqrt (50 * 50 + 0 * 0)) : ℤ) : ℝ)) / (mkSphere 0 0 0 100 b).r)
           z := d.z * (((mkSphere 0 0 0 100 b).r +
              if (50 : ℝ) > 0 then ((jround (Real.sqrt (50 * 50 + 0 * 0)) : ℤ) : ℝ)
              else -((jround (Real.sqrt (50 * 50 + 0 * 0)) : ℤ) : ℝ)) / (mkSphere 0 0 0 100 b).r)
         } : Dot))) =
        (mkSphere 0 0 0 100 b).points.map (List.map fun d =>
          ({ d with x := d.x * 1.5, y := d.y * 1.5, z := d.z * 1.5 } : Dot)) from by
      simp only [hscale]]
    apply forall2_grid_map_self
    intro d
    exact ⟨by ring, by ring, by ring⟩

/-! ## Draw order (C2) -/

/-- **C2 (amended).** The render pass sorts the working sequence descending
by `z`, and since the draw loop walks the sorted array from index 0, for any
two entries with distinct `z` the one with **larger** `z` is drawn *before*
(not after) the one with smaller `z`: farthest first under the model's
convention that larger `z` is farther from the viewer. -/
theorem draw_order_descending :
    ∀ s : Sphere,
      List.Sorted (fun a b : ℝ => b ≤ a) ((drawList s).map Dot.z)
      ∧ List.Pairwise (fun a b : ℝ => a ≠ b → b < a) ((drawList s).map Dot.z) := by
  intro s
  have h : List.Pairwise zGE (drawList s) := List.sorted_insertionSort zGE (workingSeq s)
  constructor
  · rw [List.Sorted, List.pairwise_map]
    exact h
  · rw [List.pairwise_map]
    refine h.imp fun {p q} hle hne => ?_
    exact lt_of_le_of_ne hle (Ne.symm hne)

/-- A small render state used to exhibit the actual draw order: one row of
two surface points with `z = 5` and `z = 7`, center `(100, 100, 0)`. -/
def twoDotSphere : Sphere :=
  { x := 100, y := 100, z := 0, r := 10, circleSize := 10, drawSpheres := false
    points := [[{ x := 1, y := 2, z := 5, fg := true },
                { x := 3, y := 4, z := 7, fg := false }]] }

/-- **C2 (counterexample).** On `twoDotSphere` the sorted sequence has
`z`-values `[7, 5, 0]`: the entry with larger `z` (7) is drawn *before* the
entry with smaller `z` (5), refuting "the one with larger z is drawn after
the one with smaller z". -/
theorem draw_order_claim_false :
    (drawList twoDotSphere).map Dot.z = [7, 5, 0]
    ∧ ¬ ( List.Sorted (fun a b : ℝ => b ≤ a) ((drawList twoDotSphere).map Dot.z)
        ∧ List.Pairwise (fun a b : ℝ => a ≠ b → a < b) ((drawList twoDotSphere).map Dot.z) ) := by
  have hdl : (drawList twoDotSphere).map Dot.z = [7, 5, 0] := by
    norm_num [drawList, workingSeq, twoDotSphere, syntheticDot,
      List.insertionSort, List.orderedInsert, zGE]
  refine ⟨hdl, ?_⟩
  intro hcl
  obtain ⟨-, hpair⟩ := hcl
  rw [hdl, List.pairwise_cons] at hpair
  obtain ⟨h7, -⟩ := hpair
  have h75 := h7 5 (by norm_num) (by norm_num)
  norm_num at h75

/-! ## The synthetic center marker (C1) and hiddenFun2 (C3) -/

/-- **C1** evaluated on the default-constructed sphere (center `(200,200,0)`,
`r = 90`): the working sequence appends `syntheticDot = (0,0,0)` — produced
by `new Dot(this.x, this.y, this.z)` hitting the options-object-destructuring
`Dot` constructor — whose coordinates differ from the center, and the draw
loop therefore colors that marker gray (level 125), not the accent blue. -/
theorem synthetic_dot_not_center :
    workingSeq (mkSphere 200 200 0 90 false) =
      (mkSphere 200 200 0 90 false).points.flatten ++ [syntheticDot]
    ∧ syntheticDot.x ≠ (mkSphere 200 200 0 90 false).x
    ∧ dotColor (mkSphere 200 200 0 90 false) syntheticDot = Color.gray 125 := by
  refine ⟨rfl, ?_, ?_⟩
  · norm_num [syntheticDot, mkSphere]
  · rw [dotColor, if_neg (by norm_num [syntheticDot, mkSphere])]
    congr 1
    rw [grayIndex, jround]
    norm_num [syntheticDot, mkSphere]

/-- **C3** evaluated at the default sphere with delta `(1, 0)`:
`hiddenFun2` reads the unbound identifier `r` and throws before producing
any successor state, while the four other gesture operations all complete
and preserve the grid shape. -/
theorem hiddenFun2_no_successor :
    (mkSphere 200 200 0 90 false).hiddenFun2 1 0 = Option.none
    ∧ gridShape ((mkSphere 200 200 0 90 false).rotate 1 0) =
        gridShape (mkSphere 200 200 0 90 false)
    ∧ gridShape ((mkSphere 200 200 0 90 false).pan 1 0) =
        gridShape (mkSphere 200 200 0 90 false)
    ∧ gridShape ((mkSphere 200 200 0 90 false).zoom 1 0) =
        gridShape (mkSphere 200 200 0 90 false)
    ∧ gridShape ((mkSphere 200 200 0 90 false).hiddenFun1 1 0) =
        gridShape (mkSphere 200 200 0 90 false) :=
  ⟨rfl, gridShape_rotate _ 1 0, gridShape_pan _ 1 0, gridShape_zoom _ 1 0,
    gridShape_hiddenFun1 _ 1 0⟩

/-! ## The grayscale formula and its range (C4) -/

/-- **C4 (amended).** Any rendered entry whose coordinates are not exactly
the center is colored `gray (round(((z + r)/(2r))·250))` from its `z` and
the model's current `r`; and for every point of a sphere freshly constructed
with `center.z = 0` and `r > 0` that gray level lies in `[0, 250]` (for such
spheres the generated `z` values lie in `[-r, r]`). -/
theorem gray_formula_and_range (s : Sphere) (d : Dot) (x y r : ℝ) (b : Bool) (e : Dot)
    (hd : ¬(d.x = s.x ∧ d.y = s.y ∧ d.z = s.z)) (hr : 0 < r)
    (he : e ∈ (mkSphere x y 0 r b).points.flatten) :
    dotColor s d = Color.gray (grayIndex s.r d.z)
    ∧ 0 ≤ grayIndex r e.z ∧ grayIndex r e.z ≤ 250 := by
  obtain ⟨θ, hz⟩ := mkSphere_mem_z x y 0 r b e he
  have hc1 : -1 ≤ Real.cos θ := Real.neg_one_le_cos θ
  have hc2 : Real.cos θ ≤ 1 := Real.cos_le_one θ
  have hlo : (0 : ℝ) ≤ (e.z + r) / (r * 2) * 250 := by
    rw [hz]
    have hnum : 0 ≤ r * Real.cos θ + 0 + r := by nlinarith
    have hden : (0 : ℝ) ≤ r * 2 := by linarith
    positivity
  have hhi : (e.z + r) / (r * 2) * 250 ≤ 250 := by
    rw [hz]
    rw [div_mul_eq_mul_div, div_le_iff₀ (by linarith : (0 : ℝ) < r * 2)]
    nlinarith
  refine ⟨by rw [dotColor, if_neg hd], ?_, ?_⟩
  · rw [grayIndex, jround]
    exact Int.floor_nonneg.mpr (by linarith)
  · rw [grayIndex, jround]
    calc ⌊(e.z + r) / (r * 2) * 250 + 1 / 2⌋
        ≤ ⌊(250 : ℝ) + 1 / 2⌋ := Int.floor_le_floor (by linarith)
      _ = 250 := by norm_num

/-- Witness for C4 at concrete inputs: the non-center dot `(5,5,5)` against
the sphere `mkSphere 0 0 0 1 false`, and the pole point `(0, 0, 0+1)` of
that same freshly constructed sphere. -/
theorem gray_formula_and_range_witness :
    dotColor (mkSphere 0 0 0 1 false) { x := 5, y := 5, z := 5, fg := true } =
      Color.gray (grayIndex (mkSphere 0 0 0 1 false).r
        (Dot.z { x := 5, y := 5, z := 5, fg := true }))
    ∧ 0 ≤ grayIndex 1 (Dot.z { x := 0, y := 0, z := 0 + 1, fg := true })
    ∧ grayIndex 1 (Dot.z { x := 0, y := 0, z := 0 + 1, fg := true }) ≤ 250 :=
  gray_formula_and_range (mkSphere 0 0 0 1 false) { x := 5, y := 5, z := 5, fg := true }
    0 0 1 false { x := 0, y := 0, z := 0 + 1, fg := true }
    (by norm_num [mkSphere]) (by norm_num) (poleDot_mem 0 0 0 1 false)

/-- **C4 (counterexample).** A sphere freshly constructed with center
`(0, 0, 10)` and `r = 10` contains the pole point `(0, 0, 10+10)`, whose
gray level is `round(((20+10)/20)·250) = 375 > 250`: the claimed range
`[0, 250]` fails for fresh spheres whose `center.z ≠ 0`. -/
theorem gray_range_claim_false :
    ({ x := 0, y := 0, z := 10 + 10, fg := true } : Dot) ∈
      (mkSphere 0 0 10 10 false).points.flatten
    ∧ grayIndex (mkSphere 0 0 10 10 false).r
        (Dot.z { x := 0, y := 0, z := 10 + 10, fg := true }) = 375
    ∧ ¬ (375 : ℤ) ≤ 250 := by
  refine ⟨poleDot_mem 0 0 10 10 false, ?_, by norm_num⟩
  rw [grayIndex, jround]
  norm_num [mkSphere]
